import Mathlib

/-!
Verification of the DenyHosts log-ingestion and decision pipeline
(`DenyHosts/deny_hosts.py`) against its natural-language specification.

The Python source is shallowly embedded: each relevant method of the
`DenyHosts` class becomes a Lean function over explicit state, and the
side effects of a call (file writes, subprocess invocations, plugin
executions, log messages) are reified as a list of events.  External
collaborators that are not part of the source file (the `AllowedHosts`
membership test, compiled regexes, the firewall subprocesses, the sync
transport, the `constants` module) are passed in as oracles/parameters,
so every theorem quantifies over their behaviour.
-/

namespace DenyHosts

/-- A host is a textual IPv4/IPv6 address. -/
abbrev Host := String

/-! ## Regex match objects

A Python `re` match object, as used by `deny_hosts.py`, is abstracted by
its named-group lookup: `groups g = none` models the case where the
pattern does not define group `g` (so `.group(g)` raises `IndexError`);
`groups g = some none` models a defined group that did not participate in
the match (`.group(g)` returns `None`); `groups g = some (some s)` models
a group that captured the text `s`. -/
structure RxMatch where
  groups : String → Option (Option String)

/-- Python truthiness of the value returned by `.group(g)` when it does not
raise: `None` and the empty string are falsy. -/
def groupTruthy : Option String → Bool
  | none => false
  | some s => s != ""

/-- Shallow embedding of `DenyHosts.is_valid` (deny_hosts.py lines 521-528):
`invalid` starts at 0, is set to 1 when `rx_match.group("invalid")` is
truthy, and is also set to 1 by the `except` clause when the lookup
raises (the pattern defines no group named `invalid`). -/
def is_valid (m : RxMatch) : Nat :=
  match m.groups "invalid" with
  | none => 1
  | some g => if groupTruthy g then 1 else 0

/-- The specification's reading of the `invalid` flag (spec section 4.1):
`invalid = 1` iff the match exposes a non-empty named group `invalid`;
a match whose regex does not define the group, or where the group is
empty, yields 0.  Stated from the spec's words, for comparison with
`is_valid` which is translated from the source. -/
def specInvalid (m : RxMatch) : Nat :=
  match m.groups "invalid" with
  | none => 0
  | some g => if groupTruthy g then 1 else 0

/-- A match object whose pattern defines no group named `invalid`. -/
def matchWithoutInvalidGroup : RxMatch := ⟨fun _ => none⟩

/-- C5 counterexample: on a match whose regex does not define an `invalid`
group, the code sets `invalid = 1` (the `except` branch of `is_valid`),
while the claim requires `invalid = 0`. -/
theorem is_valid_claim_cex :
    is_valid matchWithoutInvalidGroup = 1 ∧
    specInvalid matchWithoutInvalidGroup = 0 := by
  constructor <;> rfl

/-- C5 (amended): `is_valid` returns 1 iff the match exposes a non-empty
`invalid` group or the group lookup raises because the pattern defines no
such group; only a defined group that is unset or empty yields 0. -/
theorem is_valid_iff (m : RxMatch) :
    is_valid m = 1 ↔
      (m.groups "invalid" = none ∨
       ∃ s, m.groups "invalid" = some (some s) ∧ s ≠ "") := by
  unfold is_valid
  cases hg : m.groups "invalid" with
  | none => simp
  | some g =>
    cases g with
    | none => simp [groupTruthy]
    | some s =>
      simp only [groupTruthy]
      by_cases hs : s = ""
      · subst hs; simp
      · have hb : (s != "") = true := bne_iff_ne.mpr hs
        simp [hb, hs]

/-! ## The line classifier (process_log, lines 558-598)

Compiled regexes are abstracted as oracles `String → Option RxMatch`
(`.match` / `.search` both return a match object or `None`; the
distinction is irrelevant to the control flow modelled here).
`FAILED_ENTRY_REGEX_RANGE` comes from the `constants` module, which is
not part of the source file; the spec describes it as the numeric order
`1..N`, so it is carried as an abstract list of indices. -/
structure Classifier where
  sshd_format : String → Option RxMatch
  failedRange : List Nat
  failedMap : Nat → Option (String → Option RxMatch)
  successful : String → Option RxMatch
  dovecot : String → Option RxMatch
  userdef : List (String → Option RxMatch)
  detectDovecot : Bool

/-- Which regex produced the match object currently bound to `m`. -/
inductive MatchSrc where
  | numbered (i : Nat)
  | succRegex
  | dovecot
  | userdef (k : Nat)
  deriving DecidableEq, Repr

/-- The `for i in FAILED_ENTRY_REGEX_RANGE` loop (lines 566-573): skip
absent entries, return the first index whose regex matches the message. -/
def findFailed (cl : Classifier) (message : String) : List Nat → Option (Nat × RxMatch)
  | [] => none
  | i :: rest =>
    match cl.failedMap i with
    | none => findFailed cl message rest
    | some rx =>
      match rx message with
      | some m => some (i, m)
      | none => findFailed cl message rest

/-- The user-defined regex loop (lines 589-594), indexed by position. -/
def findUserdef (line : String) : List (String → Option RxMatch) → Nat → Option (Nat × RxMatch)
  | [], _ => none
  | rx :: rest, k =>
    match rx line with
    | some m => some (k, m)
    | none => findUserdef line rest (k + 1)

/-- The classification state at line 596 of `process_log`: the match
object bound to `m` (tagged with which regex produced it), and the
`success` / `invalid` flags. -/
structure LineClass where
  m : Option (MatchSrc × RxMatch)
  success : Nat
  invalid : Nat

/-- Shallow embedding of the per-line classification of
`DenyHosts.process_log` (deny_hosts.py lines 558-594).  The envelope
section (lines 561-577) sets `m`, `success`, `invalid`; the Dovecot
section (lines 580-585) runs whenever `DETECT_DOVECOT_LOGIN_ATTEMPTS` is
truthy and rebinds `m` to the result of `rx.search(line)` (even when that
result is `None`); the userdef section (lines 588-594) runs only when `m`
is `None`.  `Except.error` models the uncaught exception raised at line
563 when the envelope match has no usable `message` group. -/
def classifyLine (cl : Classifier) (line : String) : Except Unit LineClass :=
  let envelope : Except Unit (Option (MatchSrc × RxMatch) × Nat × Nat) :=
    match cl.sshd_format line with
    | none => Except.ok (none, 0, 0)
    | some sshd_m =>
      match sshd_m.groups "message" with
      | some (some message) =>
        match findFailed cl message cl.failedRange with
        | some (i, fm) => Except.ok (some (MatchSrc.numbered i, fm), 0, is_valid fm)
        | none =>
          match cl.successful message with
          | some sm => Except.ok (some (MatchSrc.succRegex, sm), 1, 0)
          | none => Except.ok (none, 0, 0)
      | _ => Except.error ()
  match envelope with
  | Except.error e => Except.error e
  | Except.ok (m0, success0, invalid0) =>
    let dovecotStep : Option (MatchSrc × RxMatch) × Nat :=
      if cl.detectDovecot then
        match cl.dovecot line with
        | some dm => (some (MatchSrc.dovecot, dm), is_valid dm)
        | none => (none, invalid0)
      else (m0, invalid0)
    let m1 := dovecotStep.1
    let invalid1 := dovecotStep.2
    match m1 with
    | some _ => Except.ok ⟨m1, success0, invalid1⟩
    | none =>
      match findUserdef line cl.userdef 0 with
      | some (k, um) => Except.ok ⟨some (MatchSrc.userdef k, um), success0, is_valid um⟩
      | none => Except.ok ⟨none, success0, invalid1⟩

/-- Envelope match object for the counterexample line: exposes a
`message` group. -/
def envMatch : RxMatch :=
  ⟨fun g => if g = "message" then some (some "Failed password for invalid user x") else none⟩

/-- Failed-entry match object for the counterexample line: exposes `host`
and a non-empty `invalid` group. -/
def failMatch : RxMatch :=
  ⟨fun g => if g = "host" then some (some "10.0.0.1")
            else if g = "invalid" then some (some "invalid ") else none⟩

/-- A classifier whose envelope regex and numbered failed regex 1 both
match the input line, whose Dovecot regex matches nothing, and with
Dovecot detection enabled. -/
def clDovecotOn : Classifier where
  sshd_format := fun _ => some envMatch
  failedRange := [1, 2, 3]
  failedMap := fun i => if i = 1 then some (fun _ => some failMatch) else some (fun _ => none)
  successful := fun _ => none
  dovecot := fun _ => none
  userdef := []
  detectDovecot := true

/-- The same classifier with Dovecot detection disabled. -/
def clDovecotOff : Classifier := { clDovecotOn with detectDovecot := false }

/-- Projection used to compare classification outcomes: the source tag of
the final match, plus the `success` and `invalid` flags. -/
def classTag (r : Except Unit LineClass) : Except Unit (Option MatchSrc × Nat × Nat) :=
  r.map fun lc => (lc.m.map Prod.fst, lc.success, lc.invalid)

/-- C2: with Dovecot detection disabled the line is classified by numbered
failed regex 1, but enabling Dovecot detection makes line 581's
`m = rx.search(line)` overwrite that match object with `None` (the
Dovecot regex does not match), so the very same line is dropped as
unimportant — contradicting both the short-circuit order and the claim
that an envelope classification is kept. -/
theorem dovecot_overwrites_classification :
    classTag (classifyLine clDovecotOff "line") =
      Except.ok (some (MatchSrc.numbered 1), 0, 1) ∧
    classTag (classifyLine clDovecotOn "line") = Except.ok (none, 0, 1) := by
  constructor <;> rfl

/-! ## The purge / sync cadence counters (runDaemon and sleepAndPurge)

`runDaemon` (lines 171-196) computes `purge_sleep_ratio =
daemon_purge / daemon_sleep` and `sync_sleep_ratio = sync_time /
daemon_sleep`.  The source runs under Python 3, where `/` on integers is
true division producing a float; `sleepAndPurge` then tests
`self.purge_counter == purge_sleep_ratio` (line 266) — an exact
`int == float` comparison.  For the preference magnitudes involved
(seconds, far below 2^52) the float equals the mathematical quotient
exactly when that quotient is an integer, and an `int == float`
comparison holds exactly when the float is that integer, so the ratio is
modelled as the exact rational. -/
def purge_sleep_ratio (daemon_sleep daemon_purge : Nat) : ℚ :=
  ((max daemon_sleep daemon_purge : Nat) : ℚ) / (daemon_sleep : ℚ)

/-- One pass of the purge-counter logic of `sleepAndPurge` (lines
264-273): increment the counter, and when it equals the ratio run the
purge and reset to 0. -/
def counterStep (ratio : ℚ) (counter : Nat) : Bool × Nat :=
  let c := counter + 1
  if (c : ℚ) = ratio then (true, 0) else (false, c)

/-- The fire/no-fire outcomes of `n` successive daemon ticks, starting
from counter value `counter`. -/
def counterTicks (ratio : ℚ) (counter : Nat) : Nat → List Bool
  | 0 => []
  | n + 1 =>
    let s := counterStep ratio counter
    s.1 :: counterTicks ratio s.2 n

theorem natCast_eq_div_iff (c p s : Nat) (hs : s ≠ 0) :
    ((c : ℚ) = (p : ℚ) / (s : ℚ)) ↔ c * s = p := by
  rw [eq_div_iff (by exact_mod_cast hs)]
  constructor
  · intro h; exact_mod_cast h
  · intro h; exact_mod_cast h

/-- C3: with `DAEMON_SLEEP = 60` and `DAEMON_PURGE = 90` the ratio is the
float 1.5, and the integer purge counter never compares equal to it, so
the purge collaborator is never invoked — on no tick, from any starting
counter value.  (The sync counter at line 278 uses the identical
`int == float` comparison, so the same argument applies to
`sync_sleep_ratio`.)  The claim's `⌈90 / 60⌉ = 2`-tick cadence never
happens. -/
theorem purge_counter_never_fires :
    ∀ c n, counterTicks (purge_sleep_ratio 60 90) c n = List.replicate n false := by
  have hmax : (max 60 90 : Nat) = 90 := by norm_num
  have hne : ∀ c : Nat, ¬ ((c : ℚ) = purge_sleep_ratio 60 90) := by
    intro c h
    rw [purge_sleep_ratio, hmax, natCast_eq_div_iff c 90 60 (by norm_num)] at h
    omega
  intro c n
  induction n generalizing c with
  | zero => rfl
  | succ n ih =>
    simp only [counterTicks, counterStep, if_neg (hne (c + 1)), List.replicate]
    exact congrArg _ (ih (c + 1))

/-! ## Observable events

Each side effect performed by the embedded methods is reified as one
event, in program order. -/
inductive Ev where
  | sleepFor (t : Nat)
  | purgeRun (age : Nat)
  | syncSend
  | syncRecv
  | syncDisconnect
  | getDeniedHosts
  | updateHostsDeny (hosts : List Host)
  | exceptionLog
  | fwInit
  | fwBlockCall (hosts : List Host)
  | fwAdd (host : Host)
  | pfFileWrite (file : String) (host : Host)
  | fwError (msg : String)
  | fileWrite (host : Host) (line : String)
  | stdoutWrite (host : Host) (line : String)
  | printMsg (msg : String)
  | pluginExec (cmd : String) (hosts : List Host)
  | reportAdd (msg : String) (items : List Host)
  | syncAddHosts (hosts : List Host)
  | logMsg (msg : String)
  | updateFirstLine
  | saveOffset (o : Int)
  | processLog (fromOffset : Int)
  deriving DecidableEq, Repr

/-- Python truthiness of a `prefs.get(...)` string value: `None` and the
empty string are falsy. -/
def strTruthy : Option String → Bool
  | none => false
  | some s => s != ""

/-- The preference values read by `update_hosts_deny`, `firewall_block`
and `process_log`, plus the three formatting constants they interpolate.
The `constants` module is not part of the source file, so `BSD_STYLE`,
`DENY_DELIMITER` and `ENTRY_DELIMITER` are opaque fields quantified over
by the theorems. -/
structure Prefs where
  hosts_deny : String
  block_service : Option String
  purge_deny : Option String
  plugin_deny : Option String
  iptables : Option String
  ipset_command : Option String
  ipset_name : Option String
  blockport : Option String
  pfctl_path : Option String
  pf_table : Option String
  pf_table_file : Option String
  bsd_style : String
  deny_delimiter : String
  entry_delimiter : String

/-- The local names bound in the body of `firewall_block`: only its
parameter `hosts` (plus loop locals).  There is no module-level or other
enclosing binding named `new_hosts`, so looking that name up fails —
in Python, a `NameError` at line 410. -/
def fwBlockScope (hosts : List Host) : String → Option (List Host) :=
  fun n => if n = "hosts" then some hosts else none

/-- Shallow embedding of `DenyHosts.firewall_block` (lines 357-418) as its
event trace.  The iptables branches (with or without ipset) and the PF
branch each issue one subprocess add per host; the model takes the
success path of `system_execute` (a failing subprocess only truncates
the per-host loop, which no claim depends on).  The PF-table-file branch
(lines 406-418) iterates over the name `new_hosts`, which is not bound in
this function — the resulting `NameError` is caught by the
`except` at line 415, which prints an error and writes nothing. -/
def firewall_block (p : Prefs) (hosts : List Host) : List Ev :=
  (if strTruthy p.iptables then
     (if strTruthy p.ipset_name && strTruthy p.ipset_command then [Ev.fwInit] else [])
       ++ hosts.map Ev.fwAdd
   else if strTruthy p.pfctl_path && strTruthy p.pf_table then
     hosts.map Ev.fwAdd
   else [])
  ++
  (if strTruthy p.pf_table_file then
     match fwBlockScope hosts "new_hosts" with
     | none => [Ev.fwError "NameError"]
     | some hs => hs.map (fun h => Ev.pfFileWrite (p.pf_table_file.getD "") h)
   else [])

/-- The in-memory state of the `DenyHosts` object consulted by
`update_hosts_deny`: the keys of `__denied_hosts`, the `__allowed_hosts`
membership test (an external collaborator, hence an oracle), the
`__fw_blocked_hosts` set and the `__fw_initialized` flag. -/
structure DState where
  denied_hosts : List Host
  allowed : Host → Bool
  fw_blocked : List Host
  fw_init_done : Bool

/-- The `fw_hosts` list comprehension of `update_hosts_deny` (lines
468-471): deny candidates that are not allow-listed, not already in the
in-memory blocked set, and not reported blocked by `firewall_check`
(whose subprocess-backed result is the oracle `fwCheck`). -/
def fwHostsOf (st : DState) (fwCheck : Host → Bool) (deny_hosts : List Host) : List Host :=
  deny_hosts.filter fun h => !st.allowed h && !st.fw_blocked.contains h && !fwCheck h

/-- The `new_hosts` list comprehension of `update_hosts_deny` (lines
475-477): deny candidates not already denied and not allow-listed. -/
def newHostsOf (st : DState) (deny_hosts : List Host) : List Host :=
  deny_hosts.filter fun h => !st.denied_hosts.contains h && !st.allowed h

/-- The line (or pair of lines, when `PURGE_DENY` is set) appended to the
access-control file for one host (lines 496-510).  Note line 496 tests
`is not None`, not truthiness. -/
def denyWriteLines (p : Prefs) (asctime : String) (host : Host) : List String :=
  let output :=
    if strTruthy p.block_service then
      p.block_service.getD "" ++ ": " ++ host ++ p.bsd_style
    else host
  (if p.purge_deny.isSome then
     [p.deny_delimiter ++ " " ++ asctime ++ p.entry_delimiter ++ output ++ "\n"]
   else [])
  ++ [output ++ "\n"]

/-- The iptables reconciliation section of `update_hosts_deny` (lines
465-473): lazily initialise the firewall, then block the still-unblocked,
non-allowed candidates. -/
def uhdFw1 (p : Prefs) (st : DState) (fwCheck : Host → Bool) (deny_hosts : List Host) :
    List Ev :=
  if strTruthy p.iptables then
    (if !st.fw_init_done then [Ev.fwInit] else [])
      ++ (if (fwHostsOf st fwCheck deny_hosts).isEmpty then []
          else Ev.fwBlockCall (fwHostsOf st fwCheck deny_hosts)
                 :: firewall_block p (fwHostsOf st fwCheck deny_hosts))
  else []

/-- The PF special case of `update_hosts_deny` (lines 483-484): block all
of `new_hosts`, since `firewall_check` is not implemented for PF. -/
def uhdFw2 (p : Prefs) (new_hosts : List Host) : List Ev :=
  if strTruthy p.pfctl_path && strTruthy p.pf_table then
    Ev.fwBlockCall new_hosts :: firewall_block p new_hosts
  else []

/-- The diagnostics printed when `open(HOSTS_DENY, "a")` fails (lines
489-494). -/
def uhdOpen (openOk : Bool) : List Ev :=
  if openOk then [] else [Ev.printMsg "could not open HOSTS_DENY"]

/-- The write loop of `update_hosts_deny` (lines 497-510): for each new
host, write its formatted entry lines to `fp`, which is the deny file
when the open succeeded and `sys.stdout` otherwise. -/
def uhdWrites (p : Prefs) (openOk : Bool) (asctime : String) (new_hosts : List Host) :
    List Ev :=
  new_hosts.flatMap fun h =>
    (denyWriteLines p asctime h).map fun l =>
      if openOk then Ev.fileWrite h l else Ev.stdoutWrite h l

/-- The plugin invocation at the end of `update_hosts_deny` (lines
515-516). -/
def uhdPlugin (p : Prefs) (new_hosts : List Host) : List Ev :=
  if strTruthy p.plugin_deny then [Ev.pluginExec (p.plugin_deny.getD "") new_hosts]
  else []

/-- Shallow embedding of `DenyHosts.update_hosts_deny` (lines 457-518).
Returns the event trace together with the `(new_hosts, status)` pair the
method returns.  `openOk` is the outcome of `open(HOSTS_DENY, "a")` at
line 487: on failure the method prints diagnostics and writes the very
same formatted entries to `sys.stdout` instead, returning status 0.
Each write event is tagged with the host of the loop iteration (line
497) that produced it. -/
def update_hosts_deny (p : Prefs) (st : DState) (fwCheck : Host → Bool)
    (openOk : Bool) (asctime : String) (deny_hosts : List Host) :
    List Ev × Option (List Host) × Option Nat :=
  if deny_hosts.isEmpty then ([], none, none)
  else if (newHostsOf st deny_hosts).isEmpty then
    (uhdFw1 p st fwCheck deny_hosts, none, none)
  else
    (uhdFw1 p st fwCheck deny_hosts ++ uhdFw2 p (newHostsOf st deny_hosts)
       ++ uhdOpen openOk ++ uhdWrites p openOk asctime (newHostsOf st deny_hosts)
       ++ uhdPlugin p (newHostsOf st deny_hosts),
     some (newHostsOf st deny_hosts), some (if openOk then 1 else 0))

/-- Shallow embedding of the tail of `DenyHosts.process_log` (lines
625-638): hand the deny candidates to `update_hosts_deny`, and when it
returned new hosts, add a report section, stage them for sync when a
sync server is configured, and execute the deny plugin (again). -/
def process_log_post (p : Prefs) (st : DState) (fwCheck : Host → Bool)
    (openOk : Bool) (asctime : String) (sync_server : Option String)
    (deny_hosts : List Host) : List Ev :=
  let r := update_hosts_deny p st fwCheck openOk asctime deny_hosts
  r.1 ++
    match r.2.1 with
    | none => []
    | some hs =>
      if hs.isEmpty then []
      else
        Ev.reportAdd (if r.2.2 = some 0 then
            "WARNING: Could not add the following hosts"
          else "Added the following hosts") hs
        :: (if strTruthy sync_server then [Ev.syncAddHosts hs] else [])
        ++ (if strTruthy p.plugin_deny then
              [Ev.pluginExec (p.plugin_deny.getD "") hs]
            else [])

/-! ## Event classification helpers -/

/-- Is this event an invocation of the firewall backend
(`firewall_block`)? -/
def isFwBlockCall : Ev → Bool
  | Ev.fwBlockCall _ => true
  | _ => false

/-- Is this event an append to the access-control (deny) file? -/
def isFileWrite : Ev → Bool
  | Ev.fileWrite _ _ => true
  | _ => false

/-- Is this event an execution of the deny plugin? -/
def isPluginExec : Ev → Bool
  | Ev.pluginExec _ _ => true
  | _ => false

theorem fwBlockScope_new_hosts (hs : List Host) : fwBlockScope hs "new_hosts" = none := by
  unfold fwBlockScope
  rw [if_neg (by decide)]

theorem mem_firewall_block {p : Prefs} {hs : List Host} {e : Ev}
    (he : e ∈ firewall_block p hs) :
    e = Ev.fwInit ∨ (∃ x, e = Ev.fwAdd x) ∨ e = Ev.fwError "NameError" := by
  unfold firewall_block at he
  rcases List.mem_append.mp he with h1 | h2
  · split at h1
    · rcases List.mem_append.mp h1 with h3 | h3
      · split at h3
        · simp at h3; exact Or.inl h3
        · simp at h3
      · obtain ⟨x, _, rfl⟩ := List.mem_map.mp h3
        exact Or.inr (Or.inl ⟨x, rfl⟩)
    · split at h1
      · obtain ⟨x, _, rfl⟩ := List.mem_map.mp h1
        exact Or.inr (Or.inl ⟨x, rfl⟩)
      · simp at h1
  · split at h2
    · rw [fwBlockScope_new_hosts] at h2
      simp at h2
      exact Or.inr (Or.inr h2)
    · simp at h2

theorem mem_uhdFw1 {p : Prefs} {st : DState} {fwCheck : Host → Bool}
    {dh : List Host} {e : Ev} (he : e ∈ uhdFw1 p st fwCheck dh) :
    e = Ev.fwInit ∨ e = Ev.fwBlockCall (fwHostsOf st fwCheck dh) ∨
    (∃ x, e = Ev.fwAdd x) ∨ e = Ev.fwError "NameError" := by
  unfold uhdFw1 at he
  split at he
  · rcases List.mem_append.mp he with h1 | h1
    · split at h1
      · simp at h1; exact Or.inl h1
      · simp at h1
    · split at h1
      · simp at h1
      · rcases List.mem_cons.mp h1 with h2 | h2
        · exact Or.inr (Or.inl h2)
        · rcases mem_firewall_block h2 with h3 | h3 | h3
          · exact Or.inl h3
          · exact Or.inr (Or.inr (Or.inl h3))
          · exact Or.inr (Or.inr (Or.inr h3))
  · simp at he

theorem mem_uhdFw2 {p : Prefs} {nh : List Host} {e : Ev} (he : e ∈ uhdFw2 p nh) :
    e = Ev.fwBlockCall nh ∨ (∃ x, e = Ev.fwAdd x) ∨ e = Ev.fwError "NameError" ∨
    e = Ev.fwInit := by
  unfold uhdFw2 at he
  split at he
  · rcases List.mem_cons.mp he with h2 | h2
    · exact Or.inl h2
    · rcases mem_firewall_block h2 with h3 | h3 | h3
      · exact Or.inr (Or.inr (Or.inr h3))
      · exact Or.inr (Or.inl h3)
      · exact Or.inr (Or.inr (Or.inl h3))
  · simp at he

theorem mem_uhdWrites {p : Prefs} {openOk : Bool} {asctime : String}
    {nh : List Host} {e : Ev} (he : e ∈ uhdWrites p openOk asctime nh) :
    ∃ x ∈ nh, ∃ l, e = Ev.fileWrite x l ∨ e = Ev.stdoutWrite x l := by
  unfold uhdWrites at he
  obtain ⟨x, hx, hmem⟩ := List.mem_flatMap.mp he
  obtain ⟨l, _, rfl⟩ := List.mem_map.mp hmem
  refine ⟨x, hx, l, ?_⟩
  split
  · exact Or.inl rfl
  · exact Or.inr rfl

theorem mem_uhdOpen {openOk : Bool} {e : Ev} (he : e ∈ uhdOpen openOk) :
    e = Ev.printMsg "could not open HOSTS_DENY" := by
  unfold uhdOpen at he
  split at he <;> simp at he
  exact he

theorem mem_uhdPlugin {p : Prefs} {nh : List Host} {e : Ev} (he : e ∈ uhdPlugin p nh) :
    e = Ev.pluginExec (p.plugin_deny.getD "") nh := by
  unfold uhdPlugin at he
  split at he <;> simp at he
  exact he

theorem uhdFw1_no_fileWrite {p : Prefs} {st : DState} {fwCheck : Host → Bool}
    {dh : List Host} : ∀ e ∈ uhdFw1 p st fwCheck dh, isFileWrite e = false := by
  intro e he
  rcases mem_uhdFw1 he with rfl | rfl | ⟨x, rfl⟩ | rfl <;> rfl

theorem pairwise_fw_before_writes {l1 l2 : List Ev}
    (h1 : ∀ a ∈ l1, isFileWrite a = false)
    (h2 : ∀ b ∈ l2, isFwBlockCall b = false) :
    (l1 ++ l2).Pairwise fun a b => ¬(isFileWrite a = true ∧ isFwBlockCall b = true) := by
  rw [List.pairwise_append]
  refine ⟨List.pairwise_of_forall_mem_list fun a ha b _ => ?_,
          List.pairwise_of_forall_mem_list fun a _ b hb => ?_,
          fun a ha b _ => ?_⟩
  · rintro ⟨hfa, -⟩; rw [h1 a ha] at hfa; simp at hfa
  · rintro ⟨-, hfb⟩; rw [h2 b hb] at hfb; simp at hfb
  · rintro ⟨hfa, -⟩; rw [h1 a ha] at hfa; simp at hfa

/-- C1 as the specification states it: in the event trace of one batch,
every deny-file append happens before every firewall-backend
invocation (equivalently, no firewall invocation strictly precedes a
deny-file write). -/
def denyAppendsPrecedeFirewall (tr : List Ev) : Prop :=
  tr.Pairwise fun a b => ¬(isFwBlockCall a = true ∧ isFileWrite b = true)

/-- Preferences for the concrete counterexample runs: plain iptables
backend, everything else unset. -/
def cexPrefs : Prefs where
  hosts_deny := "/etc/hosts.deny"
  block_service := none
  purge_deny := none
  plugin_deny := none
  iptables := some "/sbin/iptables"
  ipset_command := none
  ipset_name := none
  blockport := none
  pfctl_path := none
  pf_table := none
  pf_table_file := none
  bsd_style := ""
  deny_delimiter := ""
  entry_delimiter := ""

/-- Object state for the concrete counterexample runs: nothing denied,
nothing allow-listed, nothing blocked yet. -/
def cexState : DState where
  denied_hosts := []
  allowed := fun _ => false
  fw_blocked := []
  fw_init_done := true

/-- The event trace of `update_hosts_deny` on the single candidate
1.2.3.4 under `cexPrefs`/`cexState`. -/
def cexTrace : List Ev :=
  (update_hosts_deny cexPrefs cexState (fun _ => false) true "ts" ["1.2.3.4"]).1

/-- C1 counterexample: with the iptables backend configured, the trace of
`update_hosts_deny` for candidate 1.2.3.4 invokes the firewall backend
(lines 465-473) strictly before appending the host to the deny file
(lines 486-510), so the claimed append-before-firewall order is false. -/
theorem append_before_firewall_cex : ¬ denyAppendsPrecedeFirewall cexTrace := by
  intro hP
  have ht : cexTrace = [Ev.fwBlockCall ["1.2.3.4"], Ev.fwAdd "1.2.3.4",
      Ev.fileWrite "1.2.3.4" "1.2.3.4\n"] := by rfl
  unfold denyAppendsPrecedeFirewall at hP
  rw [ht] at hP
  rcases List.pairwise_cons.mp hP with ⟨h1, -⟩
  exact h1 (Ev.fileWrite "1.2.3.4" "1.2.3.4\n") (by simp) ⟨rfl, rfl⟩

/-- C1 (amended): for every batch of deny decisions and every
configuration, `update_hosts_deny` invokes the firewall backend before it
appends the decisions to the access-control file — the reverse of the
claimed order. -/
theorem firewall_calls_precede_deny_writes (p : Prefs) (st : DState)
    (fwCheck : Host → Bool) (openOk : Bool) (asctime : String) (dh : List Host) :
    (update_hosts_deny p st fwCheck openOk asctime dh).1.Pairwise
      fun a b => ¬(isFileWrite a = true ∧ isFwBlockCall b = true) := by
  unfold update_hosts_deny
  split
  · simp
  · split
    · exact List.pairwise_of_forall_mem_list fun a ha b _ => by
        rintro ⟨hfa, -⟩
        rw [uhdFw1_no_fileWrite a ha] at hfa
        simp at hfa
    · rw [show uhdFw1 p st fwCheck dh ++ uhdFw2 p (newHostsOf st dh)
            ++ uhdOpen openOk ++ uhdWrites p openOk asctime (newHostsOf st dh)
            ++ uhdPlugin p (newHostsOf st dh)
          = (uhdFw1 p st fwCheck dh ++ uhdFw2 p (newHostsOf st dh))
            ++ (uhdOpen openOk ++ uhdWrites p openOk asctime (newHostsOf st dh)
                ++ uhdPlugin p (newHostsOf st dh)) by simp]
      apply pairwise_fw_before_writes
      · intro a ha
        rcases List.mem_append.mp ha with h | h
        · exact uhdFw1_no_fileWrite a h
        · rcases mem_uhdFw2 h with rfl | ⟨x, rfl⟩ | rfl | rfl <;> rfl
      · intro b hb
        rcases List.mem_append.mp hb with h | h
        · rcases List.mem_append.mp h with h2 | h2
          · rw [mem_uhdOpen h2]; rfl
          · obtain ⟨x, -, l, h3 | h3⟩ := mem_uhdWrites h2 <;> (subst h3; rfl)
        · rw [mem_uhdPlugin h]; rfl

/-- C6: when `PF_TABLE_FILE` is configured, the table-file branch of
`firewall_block` iterates over the unbound name `new_hosts` (line 410),
so it raises `NameError` — caught at line 415 — and never appends any
host to the configured flat file, for every input host list; only the
error diagnostic is produced. -/
theorem pf_table_file_not_written (p : Prefs) (hosts : List Host)
    (hfile : strTruthy p.pf_table_file = true) :
    (∀ f h, Ev.pfFileWrite f h ∉ firewall_block p hosts) ∧
    Ev.fwError "NameError" ∈ firewall_block p hosts := by
  constructor
  · intro f h hmem
    rcases mem_firewall_block hmem with h1 | ⟨x, h1⟩ | h1 <;> cases h1
  · unfold firewall_block
    refine List.mem_append.mpr (Or.inr ?_)
    rw [if_pos hfile, fwBlockScope_new_hosts]
    simp

/-- Preferences with only the PF table file configured. -/
def pfFilePrefs : Prefs :=
  { cexPrefs with iptables := none, pf_table_file := some "/etc/pf.table" }

/-- Witness for C6 at a concrete configuration and host list. -/
theorem pf_table_file_not_written_witness :
    (∀ f h, Ev.pfFileWrite f h ∉ firewall_block pfFilePrefs ["1.2.3.4"]) ∧
    Ev.fwError "NameError" ∈ firewall_block pfFilePrefs ["1.2.3.4"] :=
  pf_table_file_not_written pfFilePrefs ["1.2.3.4"] (by decide)

theorem not_mem_fwHostsOf {st : DState} {fwCheck : Host → Bool} {dh : List Host}
    {h : Host} (hA : st.allowed h = true) : h ∉ fwHostsOf st fwCheck dh := by
  intro hm
  have h2 := (List.mem_filter.mp hm).2
  rw [hA] at h2
  simp at h2

theorem not_mem_newHostsOf {st : DState} {dh : List Host} {h : Host}
    (hA : st.allowed h = true) : h ∉ newHostsOf st dh := by
  intro hm
  have h2 := (List.mem_filter.mp hm).2
  rw [hA] at h2
  simp at h2

/-- C7: an allow-listed host is never passed to `firewall_block`, never
written to the deny file (nor to the stdout fallback), and never appears
in the `new_hosts` list returned by `update_hosts_deny` — for every
configuration, state and candidate batch. -/
theorem allowlist_supremacy (p : Prefs) (st : DState) (fwCheck : Host → Bool)
    (openOk : Bool) (asctime : String) (dh : List Host) (h : Host)
    (hA : st.allowed h = true) :
    (∀ hs, Ev.fwBlockCall hs ∈ (update_hosts_deny p st fwCheck openOk asctime dh).1 →
       h ∉ hs) ∧
    (∀ l, Ev.fileWrite h l ∉ (update_hosts_deny p st fwCheck openOk asctime dh).1) ∧
    (∀ l, Ev.stdoutWrite h l ∉ (update_hosts_deny p st fwCheck openOk asctime dh).1) ∧
    ∀ hs, (update_hosts_deny p st fwCheck openOk asctime dh).2.1 = some hs → h ∉ hs := by
  unfold update_hosts_deny
  split
  · simp
  · split
    · refine ⟨?_, ?_, ?_, ?_⟩
      · intro hs hm
        rcases mem_uhdFw1 hm with h1 | h1 | ⟨x, h1⟩ | h1
        · cases h1
        · cases h1; exact not_mem_fwHostsOf hA
        · cases h1
        · cases h1
      · intro l hm
        rcases mem_uhdFw1 hm with h1 | h1 | ⟨x, h1⟩ | h1 <;> cases h1
      · intro l hm
        rcases mem_uhdFw1 hm with h1 | h1 | ⟨x, h1⟩ | h1 <;> cases h1
      · intro hs hm
        cases hm
    · refine ⟨?_, ?_, ?_, ?_⟩
      · intro hs hm
        simp only [List.mem_append, or_assoc] at hm
        rcases hm with hm | hm | hm | hm | hm
        · rcases mem_uhdFw1 hm with h1 | h1 | ⟨x, h1⟩ | h1
          · cases h1
          · cases h1; exact not_mem_fwHostsOf hA
          · cases h1
          · cases h1
        · rcases mem_uhdFw2 hm with h1 | ⟨x, h1⟩ | h1 | h1
          · cases h1; exact not_mem_newHostsOf hA
          · cases h1
          · cases h1
          · cases h1
        · cases mem_uhdOpen hm
        · obtain ⟨x, -, l, h1 | h1⟩ := mem_uhdWrites hm <;> cases h1
        · cases mem_uhdPlugin hm
      · intro l hm
        simp only [List.mem_append, or_assoc] at hm
        rcases hm with hm | hm | hm | hm | hm
        · rcases mem_uhdFw1 hm with h1 | h1 | ⟨x, h1⟩ | h1 <;> cases h1
        · rcases mem_uhdFw2 hm with h1 | ⟨x, h1⟩ | h1 | h1 <;> cases h1
        · cases mem_uhdOpen hm
        · obtain ⟨x, hx, l2, h1 | h1⟩ := mem_uhdWrites hm
          · cases h1; exact not_mem_newHostsOf hA hx
          · cases h1
        · cases mem_uhdPlugin hm
      · intro l hm
        simp only [List.mem_append, or_assoc] at hm
        rcases hm with hm | hm | hm | hm | hm
        · rcases mem_uhdFw1 hm with h1 | h1 | ⟨x, h1⟩ | h1 <;> cases h1
        · rcases mem_uhdFw2 hm with h1 | ⟨x, h1⟩ | h1 | h1 <;> cases h1
        · cases mem_uhdOpen hm
        · obtain ⟨x, hx, l2, h1 | h1⟩ := mem_uhdWrites hm
          · cases h1
          · cases h1; exact not_mem_newHostsOf hA hx
        · cases mem_uhdPlugin hm
      · intro hs hm
        cases hm
        exact not_mem_newHostsOf hA

/-- Object state whose allow-list contains exactly 9.9.9.9. -/
def allowState : DState where
  denied_hosts := []
  allowed := fun h => h == "9.9.9.9"
  fw_blocked := []
  fw_init_done := true

/-- Witness for C7: the allow-listed host 9.9.9.9 is excluded even though
it is the sole deny candidate. -/
theorem allowlist_supremacy_witness :
    (∀ hs, Ev.fwBlockCall hs ∈
        (update_hosts_deny cexPrefs allowState (fun _ => false) true "ts" ["9.9.9.9"]).1 →
       "9.9.9.9" ∉ hs) ∧
    (∀ l, Ev.fileWrite "9.9.9.9" l ∉
        (update_hosts_deny cexPrefs allowState (fun _ => false) true "ts" ["9.9.9.9"]).1) ∧
    (∀ l, Ev.stdoutWrite "9.9.9.9" l ∉
        (update_hosts_deny cexPrefs allowState (fun _ => false) true "ts" ["9.9.9.9"]).1) ∧
    ∀ hs, (update_hosts_deny cexPrefs allowState (fun _ => false) true "ts"
        ["9.9.9.9"]).2.1 = some hs → "9.9.9.9" ∉ hs :=
  allowlist_supremacy cexPrefs allowState (fun _ => false) true "ts" ["9.9.9.9"]
    "9.9.9.9" (by decide)

/-- Extract the (host, line) payload of a deny-file write event. -/
def filePair : Ev → Option (Host × String)
  | Ev.fileWrite h l => some (h, l)
  | _ => none

/-- Extract the (host, line) payload of a stdout fallback write event. -/
def stdoutPair : Ev → Option (Host × String)
  | Ev.stdoutWrite h l => some (h, l)
  | _ => none

theorem update_hosts_deny_eq (p : Prefs) (st : DState) (fwCheck : Host → Bool)
    (openOk : Bool) (asctime : String) (dh : List Host)
    (hdh : dh.isEmpty = false) (hne : (newHostsOf st dh).isEmpty = false) :
    update_hosts_deny p st fwCheck openOk asctime dh
      = (uhdFw1 p st fwCheck dh ++ uhdFw2 p (newHostsOf st dh) ++ uhdOpen openOk
          ++ uhdWrites p openOk asctime (newHostsOf st dh)
          ++ uhdPlugin p (newHostsOf st dh),
         some (newHostsOf st dh), some (if openOk then 1 else 0)) := by
  unfold update_hosts_deny
  rw [hdh, hne]
  simp

theorem map_stdout_pairs (x : Host) (ls : List String) :
    (ls.map fun l => Ev.stdoutWrite x l).filterMap stdoutPair = ls.map fun l => (x, l) := by
  induction ls with
  | nil => rfl
  | cons a t ih => simp [List.filterMap_cons, stdoutPair, ih]

theorem map_file_pairs (x : Host) (ls : List String) :
    (ls.map fun l => Ev.fileWrite x l).filterMap filePair = ls.map fun l => (x, l) := by
  induction ls with
  | nil => rfl
  | cons a t ih => simp [List.filterMap_cons, filePair, ih]

theorem uhdWrites_false_pairs (p : Prefs) (asctime : String) (nh : List Host) :
    (uhdWrites p false asctime nh).filterMap stdoutPair
      = nh.flatMap fun h => (denyWriteLines p asctime h).map fun l => (h, l) := by
  induction nh with
  | nil => rfl
  | cons x t ih =>
    unfold uhdWrites at ih ⊢
    rw [List.flatMap_cons, List.flatMap_cons, List.filterMap_append, ih]
    congr 1
    have he : ((denyWriteLines p asctime x).map fun l =>
        if (false : Bool) then Ev.fileWrite x l else Ev.stdoutWrite x l)
        = (denyWriteLines p asctime x).map fun l => Ev.stdoutWrite x l := by simp
    rw [he, map_stdout_pairs]

theorem uhdWrites_true_pairs (p : Prefs) (asctime : String) (nh : List Host) :
    (uhdWrites p true asctime nh).filterMap filePair
      = nh.flatMap fun h => (denyWriteLines p asctime h).map fun l => (h, l) := by
  induction nh with
  | nil => rfl
  | cons x t ih =>
    unfold uhdWrites at ih ⊢
    rw [List.flatMap_cons, List.flatMap_cons, List.filterMap_append, ih]
    congr 1
    have he : ((denyWriteLines p asctime x).map fun l =>
        if (true : Bool) then Ev.fileWrite x l else Ev.stdoutWrite x l)
        = (denyWriteLines p asctime x).map fun l => Ev.fileWrite x l := by simp
    rw [he, map_file_pairs]

theorem stdoutPair_fw1_nil (p : Prefs) (st : DState) (fwCheck : Host → Bool)
    (dh : List Host) : (uhdFw1 p st fwCheck dh).filterMap stdoutPair = [] :=
  List.filterMap_eq_nil_iff.mpr fun e he => by
    rcases mem_uhdFw1 he with rfl | rfl | ⟨x, rfl⟩ | rfl <;> rfl

theorem filePair_fw1_nil (p : Prefs) (st : DState) (fwCheck : Host → Bool)
    (dh : List Host) : (uhdFw1 p st fwCheck dh).filterMap filePair = [] :=
  List.filterMap_eq_nil_iff.mpr fun e he => by
    rcases mem_uhdFw1 he with rfl | rfl | ⟨x, rfl⟩ | rfl <;> rfl

theorem stdoutPair_fw2_nil (p : Prefs) (nh : List Host) :
    (uhdFw2 p nh).filterMap stdoutPair = [] :=
  List.filterMap_eq_nil_iff.mpr fun e he => by
    rcases mem_uhdFw2 he with rfl | ⟨x, rfl⟩ | rfl | rfl <;> rfl

theorem filePair_fw2_nil (p : Prefs) (nh : List Host) :
    (uhdFw2 p nh).filterMap filePair = [] :=
  List.filterMap_eq_nil_iff.mpr fun e he => by
    rcases mem_uhdFw2 he with rfl | ⟨x, rfl⟩ | rfl | rfl <;> rfl

theorem stdoutPair_open_nil (openOk : Bool) :
    (uhdOpen openOk).filterMap stdoutPair = [] :=
  List.filterMap_eq_nil_iff.mpr fun e he => by rw [mem_uhdOpen he]; rfl

theorem filePair_open_nil (openOk : Bool) :
    (uhdOpen openOk).filterMap filePair = [] :=
  List.filterMap_eq_nil_iff.mpr fun e he => by rw [mem_uhdOpen he]; rfl

theorem stdoutPair_plugin_nil (p : Prefs) (nh : List Host) :
    (uhdPlugin p nh).filterMap stdoutPair = [] :=
  List.filterMap_eq_nil_iff.mpr fun e he => by rw [mem_uhdPlugin he]; rfl

theorem filePair_plugin_nil (p : Prefs) (nh : List Host) :
    (uhdPlugin p nh).filterMap filePair = [] :=
  List.filterMap_eq_nil_iff.mpr fun e he => by rw [mem_uhdPlugin he]; rfl

/-- C8: when `open(HOSTS_DENY, "a")` fails, `update_hosts_deny` returns
the new host list with status 0 (and status 1 when the open succeeds),
and the (host, line) pairs it writes to `sys.stdout` in the failure run
are exactly the pairs it appends to the deny file in the success run —
the same entries in the same format. -/
theorem deny_open_failure_fallback (p : Prefs) (st : DState) (fwCheck : Host → Bool)
    (asctime : String) (dh : List Host)
    (hne : (newHostsOf st dh).isEmpty = false) :
    (update_hosts_deny p st fwCheck false asctime dh).2.1 = some (newHostsOf st dh) ∧
    (update_hosts_deny p st fwCheck false asctime dh).2.2 = some 0 ∧
    (update_hosts_deny p st fwCheck true asctime dh).2.1 = some (newHostsOf st dh) ∧
    (update_hosts_deny p st fwCheck true asctime dh).2.2 = some 1 ∧
    (update_hosts_deny p st fwCheck false asctime dh).1.filterMap stdoutPair
      = (update_hosts_deny p st fwCheck true asctime dh).1.filterMap filePair := by
  have hdh : dh.isEmpty = false := by
    cases dh with
    | nil => simp [newHostsOf] at hne
    | cons a t => rfl
  rw [update_hosts_deny_eq p st fwCheck false asctime dh hdh hne,
      update_hosts_deny_eq p st fwCheck true asctime dh hdh hne]
  refine ⟨rfl, rfl, rfl, rfl, ?_⟩
  simp only [List.filterMap_append, stdoutPair_fw1_nil, stdoutPair_fw2_nil,
    stdoutPair_open_nil, stdoutPair_plugin_nil, filePair_fw1_nil, filePair_fw2_nil,
    filePair_open_nil, filePair_plugin_nil, uhdWrites_false_pairs, uhdWrites_true_pairs,
    List.nil_append, List.append_nil]

/-- Witness for C8 at a concrete configuration and batch. -/
theorem deny_open_failure_fallback_witness :
    (update_hosts_deny cexPrefs cexState (fun _ => false) false "ts" ["1.2.3.4"]).2.1
      = some (newHostsOf cexState ["1.2.3.4"]) ∧
    (update_hosts_deny cexPrefs cexState (fun _ => false) false "ts" ["1.2.3.4"]).2.2
      = some 0 ∧
    (update_hosts_deny cexPrefs cexState (fun _ => false) true "ts" ["1.2.3.4"]).2.1
      = some (newHostsOf cexState ["1.2.3.4"]) ∧
    (update_hosts_deny cexPrefs cexState (fun _ => false) true "ts" ["1.2.3.4"]).2.2
      = some 1 ∧
    (update_hosts_deny cexPrefs cexState (fun _ => false) false "ts"
        ["1.2.3.4"]).1.filterMap stdoutPair
      = (update_hosts_deny cexPrefs cexState (fun _ => false) true "ts"
          ["1.2.3.4"]).1.filterMap filePair :=
  deny_open_failure_fallback cexPrefs cexState (fun _ => false) "ts" ["1.2.3.4"]
    (by decide)

theorem filter_plugin_fw1_nil (p : Prefs) (st : DState) (fwCheck : Host → Bool)
    (dh : List Host) : (uhdFw1 p st fwCheck dh).filter isPluginExec = [] :=
  List.filter_eq_nil_iff.mpr fun e he => by
    rcases mem_uhdFw1 he with rfl | rfl | ⟨x, rfl⟩ | rfl <;> simp [isPluginExec]

theorem filter_plugin_fw2_nil (p : Prefs) (nh : List Host) :
    (uhdFw2 p nh).filter isPluginExec = [] :=
  List.filter_eq_nil_iff.mpr fun e he => by
    rcases mem_uhdFw2 he with rfl | ⟨x, rfl⟩ | rfl | rfl <;> simp [isPluginExec]

theorem filter_plugin_open_nil (openOk : Bool) :
    (uhdOpen openOk).filter isPluginExec = [] :=
  List.filter_eq_nil_iff.mpr fun e he => by rw [mem_uhdOpen he]; simp [isPluginExec]

theorem filter_plugin_writes_nil (p : Prefs) (openOk : Bool) (asctime : String)
    (nh : List Host) : (uhdWrites p openOk asctime nh).filter isPluginExec = [] :=
  List.filter_eq_nil_iff.mpr fun e he => by
    obtain ⟨x, -, l, rfl | rfl⟩ := mem_uhdWrites he <;> simp [isPluginExec]

/-- C9: when `PLUGIN_DENY` is configured and an ingestion cycle produces
new denied hosts, the plugin command is executed exactly twice with the
same host list: once at the end of `update_hosts_deny` (lines 515-516)
and once again in `process_log` (lines 636-638). -/
theorem plugin_executed_twice (p : Prefs) (st : DState) (fwCheck : Host → Bool)
    (openOk : Bool) (asctime : String) (sync_server : Option String)
    (dh : List Host) (cmd : String)
    (hp : p.plugin_deny = some cmd) (hc : cmd ≠ "")
    (hne : (newHostsOf st dh).isEmpty = false) :
    (process_log_post p st fwCheck openOk asctime sync_server dh).filter isPluginExec
      = [Ev.pluginExec cmd (newHostsOf st dh),
         Ev.pluginExec cmd (newHostsOf st dh)] := by
  have hdh : dh.isEmpty = false := by
    cases dh with
    | nil => simp [newHostsOf] at hne
    | cons a t => rfl
  have hcmd : strTruthy p.plugin_deny = true := by
    rw [hp]; exact bne_iff_ne.mpr hc
  have hplug : uhdPlugin p (newHostsOf st dh)
      = [Ev.pluginExec cmd (newHostsOf st dh)] := by
    unfold uhdPlugin
    rw [if_pos hcmd, hp]
    rfl
  have hsync : ∀ hs : List Host,
      (if strTruthy sync_server then [Ev.syncAddHosts hs] else []).filter isPluginExec
        = [] := by
    intro hs; split <;> rfl
  unfold process_log_post
  rw [update_hosts_deny_eq p st fwCheck openOk asctime dh hdh hne]
  simp only [hne, Bool.false_eq_true, if_false, List.filter_append, List.filter_cons,
    filter_plugin_fw1_nil, filter_plugin_fw2_nil, filter_plugin_open_nil,
    filter_plugin_writes_nil, hplug, hsync, List.nil_append, List.append_nil]
  rw [if_pos hcmd, hp]
  simp [isPluginExec]

/-- Preferences with the deny plugin configured. -/
def pluginPrefs : Prefs := { cexPrefs with plugin_deny := some "/usr/bin/report" }

/-- Witness for C9 at a concrete configuration and batch. -/
theorem plugin_executed_twice_witness :
    (process_log_post pluginPrefs cexState (fun _ => false) true "ts" none
        ["1.2.3.4"]).filter isPluginExec
      = [Ev.pluginExec "/usr/bin/report" (newHostsOf cexState ["1.2.3.4"]),
         Ev.pluginExec "/usr/bin/report" (newHostsOf cexState ["1.2.3.4"])] :=
  plugin_executed_twice pluginPrefs cexState (fun _ => false) true "ts" none
    ["1.2.3.4"] "/usr/bin/report" rfl (by decide) (by decide)

/-! ## The daemon loop (runDaemon / daemonLoop / sleepAndPurge)

The scheduler state is the pair of cadence counters (`self.purge_counter`
and `self.sync_counter`) plus the loop locals of `daemonLoop` (`inode`
and `last_offset`).  External outcomes — the purge constructor, the sync
transport calls, `os.stat`, `os.fstat` and `process_log` — are oracles. -/

/-- `SYNC_UPLOAD` / `SYNC_DOWNLOAD` flags. -/
structure SyncConfig where
  sync_upload : Bool
  sync_download : Bool
  deriving DecidableEq, Repr

/-- Python truthiness of the float `sync_sleep_ratio` (`if
sync_sleep_ratio:` at line 275): `None` and `0.0` are falsy. -/
def optTruthy : Option ℚ → Bool
  | none => false
  | some r => r != 0

/-- The `counter == ratio` comparison of lines 266 and 278: an exact
`int == float` comparison (`int == None` is simply `False`).  As with
`purge_sleep_ratio`, the float ratio is modelled by the exact rational. -/
def ratioHit (r? : Option ℚ) (c : Nat) : Bool :=
  match r? with
  | none => false
  | some r => decide ((c : ℚ) = r)

/-- The two cadence counters carried on the `DenyHosts` object. -/
structure Counters where
  purge_counter : Nat
  sync_counter : Nat
  deriving DecidableEq, Repr

/-- Python truthiness of the `purge_time` argument (`if purge_time:` at
line 264). -/
def natTruthy : Option Nat → Bool
  | none => false
  | some n => n != 0

/-- The download half of the sync `try` body (lines 284-291), given the
outcome of `sync.receive_new_hosts()`; the disconnect at line 291 runs
only if nothing raised. -/
def syncDownloadStep (cfg : SyncConfig) (recv : Except Unit (List Host)) :
    List Ev × Bool :=
  if cfg.sync_download then
    match recv with
    | Except.error _ => ([Ev.syncRecv, Ev.exceptionLog], true)
    | Except.ok hosts =>
      if hosts.isEmpty then ([Ev.syncRecv, Ev.syncDisconnect], false)
      else ([Ev.syncRecv, Ev.getDeniedHosts, Ev.updateHostsDeny hosts,
             Ev.syncDisconnect], false)
  else ([Ev.syncDisconnect], false)

/-- The sync `try` body (lines 279-294): attempt the upload and/or
download; on an exception the `except` clause logs it (the
`exceptionLog` event) and re-raises, so the boolean result records that
the exception escaped. -/
def syncAttempt (cfg : SyncConfig) (send : Except Unit Unit)
    (recv : Except Unit (List Host)) : List Ev × Bool :=
  if cfg.sync_upload then
    match send with
    | Except.error _ => ([Ev.syncSend, Ev.exceptionLog], true)
    | Except.ok _ =>
      let d := syncDownloadStep cfg recv
      (Ev.syncSend :: d.1, d.2)
  else syncDownloadStep cfg recv

/-- Shallow embedding of `DenyHosts.sleepAndPurge` (lines 261-295):
sleep, then run the purge section (lines 264-273) and the sync section
(lines 275-295).  Each section increments its counter, fires when the
counter equals its float ratio, and resets the counter to 0 only after
the fired action returns without raising; a raise is logged and
re-raised (third component `true`), skipping the rest of the method. -/
def sleepAndPurge (sleep_time : Nat) (purge_time : Option Nat)
    (purge_ratio sync_ratio : Option ℚ) (cfg : SyncConfig) (purgeFails : Bool)
    (send : Except Unit Unit) (recv : Except Unit (List Host))
    (st : Counters) : List Ev × Counters × Bool :=
  let purgeStep : List Ev × Nat × Bool :=
    if natTruthy purge_time then
      if ratioHit purge_ratio (st.purge_counter + 1) then
        if purgeFails then ([Ev.exceptionLog], st.purge_counter + 1, true)
        else ([Ev.purgeRun (purge_time.getD 0)], 0, false)
      else ([], st.purge_counter + 1, false)
    else ([], st.purge_counter, false)
  if purgeStep.2.2 then
    (Ev.sleepFor sleep_time :: purgeStep.1, ⟨purgeStep.2.1, st.sync_counter⟩, true)
  else
    let syncStep : List Ev × Nat × Bool :=
      if optTruthy sync_ratio then
        if ratioHit sync_ratio (st.sync_counter + 1) then
          let a := syncAttempt cfg send recv
          if a.2 then (a.1, st.sync_counter + 1, true) else (a.1, 0, false)
        else ([], st.sync_counter + 1, false)
      else ([], st.sync_counter, false)
    (Ev.sleepFor sleep_time :: (purgeStep.1 ++ syncStep.1),
     ⟨purgeStep.2.1, syncStep.2.1⟩, syncStep.2.2)

/-- `sys.maxsize` on a 64-bit platform, assigned at line 230. -/
def MAXSIZE : Int := 2 ^ 63 - 1

/-- What the loop observes about the log file this iteration: the result
of `os.stat(logfile)` (`none` models `OSError`, i.e. the file was
deleted) and `os.fstat(fp)[ST_SIZE]`. -/
structure FileObs where
  statInode : Option Nat
  fpSize : Int
  deriving DecidableEq, Repr

/-- The loop-local state of `daemonLoop`: the inode of the open handle,
`last_offset`, and the object's cadence counters. -/
structure LoopSt where
  inode : Nat
  last_offset : Option Int
  counters : Counters
  deriving DecidableEq, Repr

/-- Outcome of one loop iteration: either the state for the next
iteration, or an exception escaped (there is no handler in `daemonLoop`,
so the loop — and with it the daemon — terminates; the counters record
the object attributes at the point of the raise). -/
inductive IterOut where
  | nextIter (st : LoopSt)
  | raised (counters : Counters)
  deriving DecidableEq, Repr

/-- Shallow embedding of one iteration of the `while 1` loop of
`DenyHosts.daemonLoop` (lines 209-257): handle deletion (lines 212-218,
note the `sleepAndPurge` call there passes no sync ratio), rotation
(lines 220-230, forcing `last_offset = sys.maxsize`), the `None` offset
default (lines 234-235), then the three size comparisons; the
`offset < last_offset` branch (lines 249-254) resets the offset, updates
the first-line fingerprint and `continue`s — skipping `sleepAndPurge`
entirely. -/
def daemonLoopIter (sleep_time : Nat) (purge_time : Option Nat)
    (purge_ratio sync_ratio : Option ℚ) (cfg : SyncConfig) (purgeFails : Bool)
    (send : Except Unit Unit) (recv : Except Unit (List Host))
    (processResult : Int → Int) (obs : FileObs) (st : LoopSt) :
    List Ev × IterOut :=
  match obs.statInode with
  | none =>
    let r := sleepAndPurge sleep_time purge_time purge_ratio none cfg purgeFails
      send recv st.counters
    (Ev.logMsg "has been deleted" :: r.1,
     if r.2.2 then IterOut.raised r.2.1
     else IterOut.nextIter { st with counters := r.2.1 })
  | some curr =>
    let rotated : Bool := curr != st.inode
    let inode2 := if rotated then curr else st.inode
    let lo0 : Option Int := if rotated then some MAXSIZE else st.last_offset
    let evRot : List Ev := if rotated then [Ev.logMsg "has been rotated"] else []
    let offset := obs.fpSize
    let lo : Int := lo0.getD offset
    if offset > lo then
      let newOff := processResult lo
      let r := sleepAndPurge sleep_time purge_time purge_ratio sync_ratio cfg
        purgeFails send recv st.counters
      (evRot ++ [Ev.getDeniedHosts, Ev.processLog lo, Ev.saveOffset newOff] ++ r.1,
       if r.2.2 then IterOut.raised r.2.1
       else IterOut.nextIter ⟨inode2, some newOff, r.2.1⟩)
    else if offset = 0 then
      let r := sleepAndPurge sleep_time purge_time purge_ratio sync_ratio cfg
        purgeFails send recv st.counters
      (evRot ++ r.1,
       if r.2.2 then IterOut.raised r.2.1
       else IterOut.nextIter ⟨inode2, some lo, r.2.1⟩)
    else if offset < lo then
      (evRot ++ [Ev.updateFirstLine], IterOut.nextIter ⟨inode2, some 0, st.counters⟩)
    else
      let r := sleepAndPurge sleep_time purge_time purge_ratio sync_ratio cfg
        purgeFails send recv st.counters
      (evRot ++ r.1,
       if r.2.2 then IterOut.raised r.2.1
       else IterOut.nextIter ⟨inode2, some lo, r.2.1⟩)

/-- C10: on an iteration where the file exists under the same inode and
its size is non-zero but strictly smaller than the stored offset, the
loop resets `last_offset` to 0, updates the first-line fingerprint and
immediately re-enters the loop: the iteration's whole event trace is the
fingerprint update — no sleep, no purge and no sync happen — and the
counters are untouched. -/
theorem truncation_branch_restarts (sleep_time : Nat) (purge_time : Option Nat)
    (purge_ratio sync_ratio : Option ℚ) (cfg : SyncConfig) (purgeFails : Bool)
    (send : Except Unit Unit) (recv : Except Unit (List Host))
    (processResult : Int → Int) (obs : FileObs) (st : LoopSt) (L : Int)
    (hin : obs.statInode = some st.inode)
    (hlo : st.last_offset = some L)
    (hlt : obs.fpSize < L) (hnz : obs.fpSize ≠ 0) :
    daemonLoopIter sleep_time purge_time purge_ratio sync_ratio cfg purgeFails
        send recv processResult obs st
      = ([Ev.updateFirstLine], IterOut.nextIter ⟨st.inode, some 0, st.counters⟩) := by
  have h1 : ¬ (obs.fpSize > L) := by omega
  unfold daemonLoopIter
  simp [hin, hlo, h1, hnz, hlt]

/-- Witness for C10 at a concrete iteration: size 100, stored offset
500, same inode. -/
theorem truncation_branch_restarts_witness :
    daemonLoopIter 60 none none none ⟨false, false⟩ false (Except.ok ())
        (Except.ok []) (fun o => o) ⟨some 7, 100⟩ ⟨7, some 500, ⟨0, 0⟩⟩
      = ([Ev.updateFirstLine], IterOut.nextIter ⟨7, some 0, ⟨0, 0⟩⟩) :=
  truncation_branch_restarts 60 none none none ⟨false, false⟩ false (Except.ok ())
    (Except.ok []) (fun o => o) ⟨some 7, 100⟩ ⟨7, some 500, ⟨0, 0⟩⟩ 500
    rfl rfl (by decide) (by decide)

/-- Does the loop iteration hand control to a next iteration (as opposed
to an exception escaping the loop)? -/
def iterContinues : IterOut → Bool
  | IterOut.nextIter _ => true
  | IterOut.raised _ => false

/-- C4 counterexample: on a concrete sync tick whose upload raises, the
iteration ends with the exception escaping the loop — the daemon loop
does not continue, contradicting the claim that a sync transport failure
leaves the loop running for a retry. -/
theorem sync_failure_stops_loop_cex :
    iterContinues (daemonLoopIter 60 none none (some 1) ⟨true, false⟩ false
        (Except.error ()) (Except.ok []) (fun o => o) ⟨some 7, 100⟩
        ⟨7, some 100, ⟨0, 0⟩⟩).2 = false := by decide

/-- C4 (amended): for every sync tick on which the transport raises
(here: upload configured and `send_new_hosts` fails), the failure is
logged and the exception is re-raised, so the daemon loop terminates
instead of continuing; the sync counter has been incremented to the
firing value and is not reset, so even a continuation would not fire on
the next tick. -/
theorem sync_failure_raises (sleep_time : Nat) (purge_time : Option Nat)
    (purge_ratio : Option ℚ) (r : ℚ) (cfg : SyncConfig)
    (recv : Except Unit (List Host)) (processResult : Int → Int)
    (obs : FileObs) (st : LoopSt)
    (hpt : natTruthy purge_time = false)
    (hup : cfg.sync_upload = true)
    (hin : obs.statInode = some st.inode)
    (hlo : st.last_offset = some obs.fpSize)
    (hnz : obs.fpSize ≠ 0)
    (hfire : ratioHit (some r) (st.counters.sync_counter + 1) = true) :
    daemonLoopIter sleep_time purge_time purge_ratio (some r) cfg false
        (Except.error ()) recv processResult obs st
      = ([Ev.sleepFor sleep_time, Ev.syncSend, Ev.exceptionLog],
         IterOut.raised ⟨st.counters.purge_counter, st.counters.sync_counter + 1⟩) := by
  have hreq : ((st.counters.sync_counter + 1 : Nat) : ℚ) = r := by
    unfold ratioHit at hfire
    exact of_decide_eq_true hfire
  have hr0 : r ≠ 0 := by
    intro h0
    rw [h0] at hreq
    have hz : st.counters.sync_counter + 1 = 0 := by exact_mod_cast hreq
    omega
  have hbne : (r != 0) = true := bne_iff_ne.mpr hr0
  have hgt : ¬ (obs.fpSize > obs.fpSize) := lt_irrefl _
  have hlt : ¬ (obs.fpSize < obs.fpSize) := lt_irrefl _
  unfold daemonLoopIter sleepAndPurge syncAttempt
  simp [hin, hlo, hpt, hup, hnz, hfire, hbne, optTruthy]

/-- Witness for C4 at a concrete iteration: sync ratio 1, counter 0,
upload fails. -/
theorem sync_failure_raises_witness :
    daemonLoopIter 60 none none (some 1) ⟨true, false⟩ false (Except.error ())
        (Except.ok []) (fun o => o) ⟨some 7, 100⟩ ⟨7, some 100, ⟨0, 0⟩⟩
      = ([Ev.sleepFor 60, Ev.syncSend, Ev.exceptionLog], IterOut.raised ⟨0, 1⟩) :=
  sync_failure_raises 60 none none 1 ⟨true, false⟩ (Except.ok []) (fun o => o)
    ⟨some 7, 100⟩ ⟨7, some 100, ⟨0, 0⟩⟩ rfl rfl rfl rfl (by decide) (by decide)

end DenyHosts
